import Mathlib

/-!
Shallow embedding of the option-APR application (`covered_call.py`, `app.py`).

Modelling conventions:
* Python floats are modelled as `ℚ`.
* Calendar dates are modelled as integer day numbers; the current UTC date and
  the `datetime.strptime "%Y-%m-%d"` parser (an external standard-library
  collaborator) are carried in the environment.
* Optional / NaN fields of a pandas row are modelled as `Option ℚ`
  (`pd.isna` values behave exactly like missing ones in every guard of the
  source, and both take the same branch).
* The market-data provider (`yfinance`) is an external collaborator; its
  responses are fields of `Env`.  `none` models both a missing value and an
  exception raised inside one of the `try` blocks that the source swallows.
* An uncaught Python exception is modelled as `Except.error`.
-/

/-- Diagnostic counters recorded by a fetch, mirroring the dict built in
`_init_stats`. -/
structure Stats where
  total_rows : ℕ
  kept : ℕ
  missing_bid : ℕ
  not_otm : ℕ
  invalid_strike : ℕ
  error : String
deriving DecidableEq, Repr

/-- The zeroed stats record that `_init_stats` installs. -/
def emptyStats : Stats :=
  { total_rows := 0, kept := 0, missing_bid := 0, not_otm := 0,
    invalid_strike := 0, error := "" }

/-- One raw option-chain row as consumed by the source: `strike`, `bid`,
`ask`, `lastPrice`, `impliedVolatility`, any of which may be missing. -/
structure ChainRow where
  strike : Option ℚ
  bid : Option ℚ
  ask : Option ℚ
  lastPrice : Option ℚ
  impliedVolatility : Option ℚ
deriving DecidableEq, Repr

/-- The two sides of an option chain returned by the provider. -/
structure OptionChain where
  calls : List ChainRow
  puts : List ChainRow
deriving DecidableEq, Repr

/-- The environment of a fetch: current UTC date (as a day number), the
external date parser (`datetime.strptime` with format `%Y-%m-%d`, yielding a
day number, `none` when parsing raises `ValueError`), and the provider's
responses, indexed by symbol (and expiry for chains).  `none` in a provider
field models a failure or absent datum. -/
structure Env where
  today : ℤ
  parse : String → Option ℤ
  fastLastPrice : String → Option ℚ
  dailyClose : String → Option ℚ
  expiriesOf : String → Option (List String)
  chains : String → String → Option OptionChain

/-- The `OptionQuote` dataclass. -/
structure OptionQuote where
  ticker : String
  option_type : String
  expiry : ℤ
  strike : ℚ
  premium : ℚ
  underlying_price : ℚ
  days_to_expiry : ℤ
  apr : ℚ
  break_even_price : ℚ
  bid : Option ℚ
  ask : Option ℚ
  implied_vol : Option ℚ
deriving DecidableEq, Repr

/-- Python's `str.upper()` (an external builtin), character by character;
evaluable inside the kernel, unlike `String.toUpper`. -/
def strUpper (s : String) : String :=
  ⟨s.data.map Char.toUpper⟩

/-- `_get_underlying_price`: try the fast-info last price first — the source
guard is `if price:`, i.e. Python truthiness, so any nonzero value (positive
or negative) is returned; otherwise fall back to the most recent daily close
from price history, returned unconditionally when present; otherwise `None`. -/
def _get_underlying_price (env : Env) (symbol : String) : Option ℚ :=
  match env.fastLastPrice symbol with
  | some price => if price ≠ 0 then some price else env.dailyClose symbol
  | none => env.dailyClose symbol

/-- `_calculate_premium`: first present-and-positive value among bid,
last-traded price, ask; `none` when none qualifies. -/
def _calculate_premium (row : ChainRow) : Option ℚ :=
  match row.bid with
  | some bid =>
    if 0 < bid then some bid else
      match row.lastPrice with
      | some last => if 0 < last then some last else
          match row.ask with
          | some ask => if 0 < ask then some ask else none
          | none => none
      | none =>
          match row.ask with
          | some ask => if 0 < ask then some ask else none
          | none => none
  | none =>
    match row.lastPrice with
    | some last => if 0 < last then some last else
        match row.ask with
        | some ask => if 0 < ask then some ask else none
        | none => none
    | none =>
        match row.ask with
        | some ask => if 0 < ask then some ask else none
        | none => none

/-- `_calculate_days_to_expiry`: `max((expiry_date - today).days, 0)`. -/
def _calculate_days_to_expiry (expiry today : ℤ) : ℤ :=
  max (expiry - today) 0

/-- `_init_stats`: the stats key `(option_type, symbol.upper(), expiry)`
together with the freshly zeroed record installed for it. -/
def _init_stats (option_type symbol expiry : String) :
    (String × String × String) × Stats :=
  ((option_type, strUpper symbol, expiry), emptyStats)

/-- Comparison used by `sorted(results, key=lambda q: q.apr, reverse=True)`:
higher APR first.  Python's `sorted` is a stable sort, and a stable sort's
output is uniquely determined by the comparison and the input order, so the
structurally recursive `List.insertionSort` over this relation is an exact
model of it. -/
def aprDescending (a b : OptionQuote) : Prop :=
  b.apr ≤ a.apr

instance : DecidableRel aprDescending :=
  fun a b => inferInstanceAs (Decidable (b.apr ≤ a.apr))

instance : IsTotal OptionQuote aprDescending :=
  ⟨fun a b => le_total b.apr a.apr⟩

instance : IsTrans OptionQuote aprDescending :=
  ⟨fun _ _ _ h1 h2 => le_trans h2 h1⟩

/-- The row loop of `fetch_covered_call_quotes` (lines 132-163 of the
source): premium derivation, OTM filter, quote construction, and the
per-row drop counters; `row["strike"]` on a missing strike raises
`KeyError`, modelled as `Except.error`.  `kept` is set to the number of
surviving rows once the loop completes. -/
def processCallRows (symbol : String) (expiry_dt : ℤ) (underlying_price : ℚ)
    (days : ℤ) :
    List ChainRow → List OptionQuote → Stats →
      Except String (List OptionQuote) × Stats
  | [], results, stats => (.ok results, { stats with kept := results.length })
  | row :: rest, results, stats =>
    match _calculate_premium row with
    | none =>
      processCallRows symbol expiry_dt underlying_price days rest results
        { stats with missing_bid := stats.missing_bid + 1 }
    | some premium =>
      if premium ≤ 0 then
        processCallRows symbol expiry_dt underlying_price days rest results
          { stats with missing_bid := stats.missing_bid + 1 }
      else
        match row.strike with
        | none => (.error "KeyError: strike", stats)
        | some strike =>
          if strike ≤ underlying_price then
            processCallRows symbol expiry_dt underlying_price days rest results
              { stats with not_otm := stats.not_otm + 1 }
          else
            processCallRows symbol expiry_dt underlying_price days rest
              (results ++
                [{ ticker := strUpper symbol, option_type := "call",
                   expiry := expiry_dt, strike := strike, premium := premium,
                   underlying_price := underlying_price,
                   days_to_expiry := days,
                   apr := (premium / underlying_price) * (365 / (days : ℚ)) * 100,
                   break_even_price := underlying_price - premium,
                   bid := row.bid, ask := row.ask,
                   implied_vol := row.impliedVolatility }])
              stats

/-- The row loop of `fetch_cash_secured_put_quotes` (lines 217-252):
as for calls but the OTM filter drops `strike >= underlying`, a
non-positive strike is dropped as `invalid_strike`, APR uses the strike as
basis and break-even is `strike - premium`. -/
def processPutRows (symbol : String) (expiry_dt : ℤ) (underlying_price : ℚ)
    (days : ℤ) :
    List ChainRow → List OptionQuote → Stats →
      Except String (List OptionQuote) × Stats
  | [], results, stats => (.ok results, { stats with kept := results.length })
  | row :: rest, results, stats =>
    match _calculate_premium row with
    | none =>
      processPutRows symbol expiry_dt underlying_price days rest results
        { stats with missing_bid := stats.missing_bid + 1 }
    | some premium =>
      if premium ≤ 0 then
        processPutRows symbol expiry_dt underlying_price days rest results
          { stats with missing_bid := stats.missing_bid + 1 }
      else
        match row.strike with
        | none => (.error "KeyError: strike", stats)
        | some strike =>
          if underlying_price ≤ strike then
            processPutRows symbol expiry_dt underlying_price days rest results
              { stats with not_otm := stats.not_otm + 1 }
          else if strike ≤ 0 then
            processPutRows symbol expiry_dt underlying_price days rest results
              { stats with invalid_strike := stats.invalid_strike + 1 }
          else
            processPutRows symbol expiry_dt underlying_price days rest
              (results ++
                [{ ticker := strUpper symbol, option_type := "put",
                   expiry := expiry_dt, strike := strike, premium := premium,
                   underlying_price := underlying_price,
                   days_to_expiry := days,
                   apr := (premium / strike) * (365 / (days : ℚ)) * 100,
                   break_even_price := strike - premium,
                   bid := row.bid, ask := row.ask,
                   implied_vol := row.impliedVolatility }])
              stats

/-- `fetch_covered_call_quotes`.  The second component is the stats record
visible in the module-level stats map after the call (the dict installed by
`_init_stats` is mutated in place, so it reflects progress even when an
exception propagates). -/
def fetch_covered_call_quotes (env : Env) (symbol expiry : String) :
    Except String (List OptionQuote) × Stats :=
  let stats := (_init_stats "call" symbol expiry).2
  match _get_underlying_price env symbol with
  | none => (.ok [], { stats with error := "missing_underlying_price" })
  | some underlying_price =>
    if underlying_price ≤ 0 then
      (.ok [], { stats with error := "missing_underlying_price" })
    else
      match env.chains symbol expiry with
      | none => (.ok [], { stats with error := "option_chain_error" })
      | some chain =>
        match env.parse expiry with
        | none => (.error "ValueError: strptime", stats)
        | some expiry_dt =>
          let days := _calculate_days_to_expiry expiry_dt env.today
          if days = 0 then
            (.ok [], { stats with error := "non_positive_days_to_expiry" })
          else
            match processCallRows symbol expiry_dt underlying_price days
                chain.calls [] { stats with total_rows := chain.calls.length } with
            | (.ok results, stats2) =>
              (.ok (List.insertionSort aprDescending results), stats2)
            | (.error msg, stats2) => (.error msg, stats2)

/-- `fetch_cash_secured_put_quotes`. -/
def fetch_cash_secured_put_quotes (env : Env) (symbol expiry : String) :
    Except String (List OptionQuote) × Stats :=
  let stats := (_init_stats "put" symbol expiry).2
  match _get_underlying_price env symbol with
  | none => (.ok [], { stats with error := "missing_underlying_price" })
  | some underlying_price =>
    if underlying_price ≤ 0 then
      (.ok [], { stats with error := "missing_underlying_price" })
    else
      match env.chains symbol expiry with
      | none => (.ok [], { stats with error := "option_chain_error" })
      | some chain =>
        match env.parse expiry with
        | none => (.error "ValueError: strptime", stats)
        | some expiry_dt =>
          let days := _calculate_days_to_expiry expiry_dt env.today
          if days = 0 then
            (.ok [], { stats with error := "non_positive_days_to_expiry" })
          else
            match processPutRows symbol expiry_dt underlying_price days
                chain.puts [] { stats with total_rows := chain.puts.length } with
            | (.ok results, stats2) =>
              (.ok (List.insertionSort aprDescending results), stats2)
            | (.error msg, stats2) => (.error msg, stats2)

/-- `list_option_expiries`: the provider's expiry list, any failure caught
and converted to an empty list. -/
def list_option_expiries (env : Env) (symbol : String) : List String :=
  (env.expiriesOf symbol).getD []

/-- The module-level `_FETCH_STATS` map. -/
def Store : Type := (String × String × String) → Option Stats

/-- `fetch_covered_call_quotes` together with its effect on `_FETCH_STATS`:
the key `("call", symbol.upper(), expiry)` ends up holding exactly the stats
of this call (the record is installed zeroed at entry and mutated in place). -/
def fetch_covered_call_quotes_full (env : Env) (symbol expiry : String)
    (store : Store) : Except String (List OptionQuote) × Store :=
  let r := fetch_covered_call_quotes env symbol expiry
  (r.1, fun k =>
    if k = ("call", strUpper symbol, expiry) then some r.2 else store k)

/-- `fetch_cash_secured_put_quotes` together with its effect on
`_FETCH_STATS`. -/
def fetch_cash_secured_put_quotes_full (env : Env) (symbol expiry : String)
    (store : Store) : Except String (List OptionQuote) × Store :=
  let r := fetch_cash_secured_put_quotes env symbol expiry
  (r.1, fun k =>
    if k = ("put", strUpper symbol, expiry) then some r.2 else store k)

/-! Presentation layer (`app.py`). -/

/-- Round a non-negative rational to the nearest integer, ties to even:
the rounding CPython's fixed-point float formatting applies to the values
appearing in this development (which are exactly representable). -/
def roundHalfEven (x : ℚ) : ℤ :=
  let f := ⌊x⌋
  let r := x - (f : ℚ)
  if r < 1 / 2 then f
  else if 1 / 2 < r then f + 1
  else if f % 2 = 0 then f else f + 1

/-- Two-digit zero padding for the fractional part. -/
def pad2 (n : ℕ) : String :=
  if n < 10 then "0" ++ toString n else toString n

/-- Python `f"{q:.2f}"`: fixed-point with two decimals, a leading minus for
negative values, no explicit plus for non-negative ones. -/
def fmt2 (q : ℚ) : String :=
  let n := (roundHalfEven (|q| * 100)).toNat
  let s := toString (n / 100) ++ "." ++ pad2 (n % 100)
  if q < 0 then "-" ++ s else s

/-- Python `f"{q:+.2f}"`: as `fmt2` but with an explicit sign on
non-negative values. -/
def fmt2Signed (q : ℚ) : String :=
  if q < 0 then fmt2 q else "+" ++ fmt2 q

/-- `format_strike_with_percent` from `app.py`: plain `"{strike:.2f}"` when
the underlying is `None` or zero, otherwise
`"{strike:.2f} ({pct_diff:.2f}%)"` with
`pct_diff = (strike - underlying) / underlying * 100`.  Note the percent
difference carries no explicit plus sign. -/
def format_strike_with_percent (strike : ℚ) (underlying : Option ℚ) : String :=
  match underlying with
  | none => fmt2 strike
  | some u =>
    if u = 0 then fmt2 strike
    else fmt2 strike ++ " (" ++ fmt2 (((strike - u) / u) * 100) ++ "%)"

/-- The strike formatting as the spec states it, with an explicitly signed
percent difference (`"{strike:.2f} ({percent_diff:+.2f}%)"`); to be compared
with `format_strike_with_percent`. -/
def format_strike_with_percent_spec (strike : ℚ) (underlying : Option ℚ) :
    String :=
  match underlying with
  | none => fmt2 strike
  | some u =>
    if u = 0 then fmt2 strike
    else fmt2 strike ++ " (" ++ fmt2Signed (((strike - u) / u) * 100) ++ "%)"

/-- The underlying-price resolution as the spec states it: use the fast
quote field only when present and positive, otherwise fall back to the daily
close; to be compared with `_get_underlying_price`. -/
def _get_underlying_price_spec (env : Env) (symbol : String) : Option ℚ :=
  match env.fastLastPrice symbol with
  | some price => if 0 < price then some price else env.dailyClose symbol
  | none => env.dailyClose symbol

/-! Concrete provider responses used to evaluate the model. -/

/-- A small option chain: two tied-APR calls, one call matching the spec's
APR example, rows dropped by each filter, and analogous put rows. -/
def chain0 : OptionChain :=
  { calls :=
      [ { strike := some 105, bid := some 2, ask := some (5/2),
          lastPrice := some (21/10), impliedVolatility := some (1/5) },
        { strike := some 110, bid := some 0, ask := some 6,
          lastPrice := some 5, impliedVolatility := none },
        { strike := some 112, bid := some 5, ask := some 6,
          lastPrice := none, impliedVolatility := none },
        { strike := some 95, bid := some 1, ask := some (3/2),
          lastPrice := none, impliedVolatility := none },
        { strike := some 120, bid := none, ask := none,
          lastPrice := none, impliedVolatility := none } ],
    puts :=
      [ { strike := some 90, bid := some (3/2), ask := some 2,
          lastPrice := some (8/5), impliedVolatility := some (3/10) },
        { strike := some 105, bid := some 1, ask := some (3/2),
          lastPrice := none, impliedVolatility := none },
        { strike := some 0, bid := some 1, ask := none,
          lastPrice := none, impliedVolatility := none },
        { strike := some 80, bid := none, ask := none,
          lastPrice := none, impliedVolatility := none } ] }

/-- A benign environment: underlying price 100 from the fast field, one
known expiry thirty days out. -/
def env0 : Env :=
  { today := 0,
    parse := fun s => if s = "2026-01-30" then some 30 else none,
    fastLastPrice := fun _ => some 100,
    dailyClose := fun _ => none,
    expiriesOf := fun _ => some ["2026-01-30"],
    chains := fun _ e => if e = "2026-01-30" then some chain0 else none }

/-- As `env0` but the chain holds a call row with a usable premium and a
missing strike value. -/
def envKeyErr : Env :=
  { env0 with
    chains := fun _ e =>
      if e = "2026-01-30" then
        some { calls := [ { strike := none, bid := some 5, ask := none,
                            lastPrice := none, impliedVolatility := none } ],
               puts := [] }
      else none }

/-- As `env0` but the fast quote field holds a negative value while the
price history holds a positive close. -/
def envNeg : Env :=
  { env0 with
    fastLastPrice := fun _ => some (-1),
    dailyClose := fun _ => some 100 }

/-- As `env0` but with a failing expiry listing. -/
def envAlt : Env :=
  { env0 with expiriesOf := fun _ => none }

/-- As `env0` but observed on the expiry date itself, so that
days-to-expiry resolves to zero. -/
def envToday : Env :=
  { env0 with today := 30 }

/-! Concrete quotes produced by `env0`, used to evaluate the theorems. -/

/-- The quote built from the `strike = 105, bid = 2` call row of `chain0`. -/
def q105 : OptionQuote :=
  { ticker := "XYZ", option_type := "call", expiry := 30, strike := 105,
    premium := 2, underlying_price := 100, days_to_expiry := 30,
    apr := 73/3, break_even_price := 98, bid := some 2, ask := some (5/2),
    implied_vol := some (1/5) }

/-- The quote built from the `strike = 110, bid = 0, last = 5` call row of
`chain0` (premium falls through to the last-traded price). -/
def q110 : OptionQuote :=
  { ticker := "XYZ", option_type := "call", expiry := 30, strike := 110,
    premium := 5, underlying_price := 100, days_to_expiry := 30,
    apr := 365/6, break_even_price := 95, bid := some 0, ask := some 6,
    implied_vol := none }

/-- The quote built from the `strike = 112, bid = 5` call row of `chain0`,
tied on APR with `q110`. -/
def q112 : OptionQuote :=
  { ticker := "XYZ", option_type := "call", expiry := 30, strike := 112,
    premium := 5, underlying_price := 100, days_to_expiry := 30,
    apr := 365/6, break_even_price := 95, bid := some 5, ask := some 6,
    implied_vol := none }

/-- The quote built from the `strike = 90, bid = 3/2` put row of `chain0`. -/
def qput90 : OptionQuote :=
  { ticker := "XYZ", option_type := "put", expiry := 30, strike := 90,
    premium := 3/2, underlying_price := 100, days_to_expiry := 30,
    apr := 365/18, break_even_price := 177/2, bid := some (3/2),
    ask := some 2, implied_vol := some (3/10) }

/-- The stats record of the covered-call fetch on `env0`. -/
def callStats0 : Stats :=
  { total_rows := 5, kept := 3, missing_bid := 1, not_otm := 1,
    invalid_strike := 0, error := "" }

/-- The stats record of the cash-secured-put fetch on `env0`. -/
def putStats0 : Stats :=
  { total_rows := 4, kept := 1, missing_bid := 1, not_otm := 1,
    invalid_strike := 1, error := "" }

/-! Helper lemmas. -/

/-- A stable sort leaves the subsequence of mutually tied elements
untouched: filtering the sorted list by a predicate that only holds inside
one tie class gives the same list as filtering the input. -/
theorem insertionSort_filter_tied {α : Type} (r : α → α → Prop)
    [DecidableRel r] (p : α → Bool) (hp : ∀ a b, p a → p b → r a b)
    (l : List α) :
    (List.insertionSort r l).filter p = l.filter p := by
  have hsub : List.Sublist (l.filter p) l := List.filter_sublist l
  have hpw : (l.filter p).Pairwise r := by
    refine List.pairwise_of_forall_mem_list ?_
    intro a ha b hb
    exact hp a b (List.of_mem_filter ha) (List.of_mem_filter hb)
  have h2 : List.Sublist (l.filter p) (List.insertionSort r l) :=
    List.sublist_insertionSort hpw hsub
  have h3 : List.Sublist (l.filter p) ((List.insertionSort r l).filter p) := by
    have h := h2.filter p
    simpa [List.filter_filter] using h
  have h4 : ((List.insertionSort r l).filter p).length = (l.filter p).length :=
    ((List.perm_insertionSort r l).filter p).length_eq
  exact (h3.eq_of_length h4.symm).symm

/-- Every quote in a successful covered-call row loop either was in the
accumulator or is a quote the loop constructed from a surviving row. -/
theorem processCallRows_mem_of_ok {symbol : String} {expiry_dt : ℤ} {u : ℚ}
    {days : ℤ} (P : OptionQuote → Prop)
    (hbuild : ∀ (row : ChainRow) (premium strike : ℚ),
      _calculate_premium row = some premium → ¬ premium ≤ 0 →
      row.strike = some strike → ¬ strike ≤ u →
      P { ticker := strUpper symbol, option_type := "call", expiry := expiry_dt,
          strike := strike, premium := premium, underlying_price := u,
          days_to_expiry := days,
          apr := (premium / u) * (365 / (days : ℚ)) * 100,
          break_even_price := u - premium,
          bid := row.bid, ask := row.ask,
          implied_vol := row.impliedVolatility }) :
    ∀ (rows : List ChainRow) (results : List OptionQuote) (stats : Stats)
      (rs : List OptionQuote) (stats' : Stats),
      (∀ q ∈ results, P q) →
      processCallRows symbol expiry_dt u days rows results stats =
        (.ok rs, stats') →
      ∀ q ∈ rs, P q := by
  intro rows
  induction rows with
  | nil =>
    intro results stats rs stats' hres h
    simp only [processCallRows, Prod.mk.injEq, Except.ok.injEq] at h
    exact h.1 ▸ hres
  | cons row rest ih =>
    intro results stats rs stats' hres h
    simp only [processCallRows] at h
    cases hp : _calculate_premium row with
    | none =>
      simp only [hp] at h
      exact ih _ _ _ _ hres h
    | some premium =>
      simp only [hp] at h
      by_cases hpe : premium ≤ 0
      · rw [if_pos hpe] at h
        exact ih _ _ _ _ hres h
      · rw [if_neg hpe] at h
        cases hs : row.strike with
        | none =>
          simp only [hs] at h
          simp at h
        | some strike =>
          simp only [hs] at h
          by_cases hso : strike ≤ u
          · rw [if_pos hso] at h
            exact ih _ _ _ _ hres h
          · rw [if_neg hso] at h
            refine ih _ _ _ _ ?_ h
            intro q hq
            rcases List.mem_append.mp hq with h1 | h2
            · exact hres q h1
            · rw [List.mem_singleton] at h2
              exact h2 ▸ hbuild row premium strike hp hpe hs hso

/-- Every quote in a successful cash-secured-put row loop either was in the
accumulator or is a quote the loop constructed from a surviving row. -/
theorem processPutRows_mem_of_ok {symbol : String} {expiry_dt : ℤ} {u : ℚ}
    {days : ℤ} (P : OptionQuote → Prop)
    (hbuild : ∀ (row : ChainRow) (premium strike : ℚ),
      _calculate_premium row = some premium → ¬ premium ≤ 0 →
      row.strike = some strike → ¬ u ≤ strike → ¬ strike ≤ 0 →
      P { ticker := strUpper symbol, option_type := "put", expiry := expiry_dt,
          strike := strike, premium := premium, underlying_price := u,
          days_to_expiry := days,
          apr := (premium / strike) * (365 / (days : ℚ)) * 100,
          break_even_price := strike - premium,
          bid := row.bid, ask := row.ask,
          implied_vol := row.impliedVolatility }) :
    ∀ (rows : List ChainRow) (results : List OptionQuote) (stats : Stats)
      (rs : List OptionQuote) (stats' : Stats),
      (∀ q ∈ results, P q) →
      processPutRows symbol expiry_dt u days rows results stats =
        (.ok rs, stats') →
      ∀ q ∈ rs, P q := by
  intro rows
  induction rows with
  | nil =>
    intro results stats rs stats' hres h
    simp only [processPutRows, Prod.mk.injEq, Except.ok.injEq] at h
    exact h.1 ▸ hres
  | cons row rest ih =>
    intro results stats rs stats' hres h
    simp only [processPutRows] at h
    cases hp : _calculate_premium row with
    | none =>
      simp only [hp] at h
      exact ih _ _ _ _ hres h
    | some premium =>
      simp only [hp] at h
      by_cases hpe : premium ≤ 0
      · rw [if_pos hpe] at h
        exact ih _ _ _ _ hres h
      · rw [if_neg hpe] at h
        cases hs : row.strike with
        | none =>
          simp only [hs] at h
          simp at h
        | some strike =>
          simp only [hs] at h
          by_cases hso : u ≤ strike
          · rw [if_pos hso] at h
            exact ih _ _ _ _ hres h
          · rw [if_neg hso] at h
            by_cases hsz : strike ≤ 0
            · rw [if_pos hsz] at h
              exact ih _ _ _ _ hres h
            · rw [if_neg hsz] at h
              refine ih _ _ _ _ ?_ h
              intro q hq
              rcases List.mem_append.mp hq with h1 | h2
              · exact hres q h1
              · rw [List.mem_singleton] at h2
                exact h2 ▸ hbuild row premium strike hp hpe hs hso hsz

/-- Counter accounting of the covered-call row loop: on completion, `kept`
is the number of surviving rows and each consumed row bumped exactly one of
`missing_bid`, `not_otm` or the result list. -/
theorem processCallRows_counts {symbol : String} {expiry_dt : ℤ} {u : ℚ}
    {days : ℤ} :
    ∀ (rows : List ChainRow) (results : List OptionQuote) (stats : Stats)
      (rs : List OptionQuote) (stats' : Stats),
      processCallRows symbol expiry_dt u days rows results stats =
        (.ok rs, stats') →
      stats'.kept = rs.length ∧
      stats'.total_rows = stats.total_rows ∧
      stats'.invalid_strike = stats.invalid_strike ∧
      stats'.error = stats.error ∧
      stats'.missing_bid + stats'.not_otm + rs.length =
        stats.missing_bid + stats.not_otm + results.length + rows.length := by
  intro rows
  induction rows with
  | nil =>
    intro results stats rs stats' h
    simp only [processCallRows, Prod.mk.injEq, Except.ok.injEq] at h
    obtain ⟨h1, h2⟩ := h
    subst h1
    rw [← h2]
    simp
  | cons row rest ih =>
    intro results stats rs stats' h
    simp only [processCallRows] at h
    cases hp : _calculate_premium row with
    | none =>
      simp only [hp] at h
      have h5 := ih _ _ _ _ h
      try dsimp only at h5
      refine ⟨h5.1, h5.2.1, h5.2.2.1, h5.2.2.2.1, ?_⟩
      have h6 := h5.2.2.2.2
      simp only [List.length_cons]
      omega
    | some premium =>
      simp only [hp] at h
      by_cases hpe : premium ≤ 0
      · rw [if_pos hpe] at h
        have h5 := ih _ _ _ _ h
        try dsimp only at h5
        refine ⟨h5.1, h5.2.1, h5.2.2.1, h5.2.2.2.1, ?_⟩
        have h6 := h5.2.2.2.2
        simp only [List.length_cons]
        omega
      · rw [if_neg hpe] at h
        cases hs : row.strike with
        | none =>
          simp only [hs] at h
          simp at h
        | some strike =>
          simp only [hs] at h
          by_cases hso : strike ≤ u
          · rw [if_pos hso] at h
            have h5 := ih _ _ _ _ h
            try dsimp only at h5
            refine ⟨h5.1, h5.2.1, h5.2.2.1, h5.2.2.2.1, ?_⟩
            have h6 := h5.2.2.2.2
            simp only [List.length_cons]
            omega
          · rw [if_neg hso] at h
            have h5 := ih _ _ _ _ h
            try dsimp only at h5
            refine ⟨h5.1, h5.2.1, h5.2.2.1, h5.2.2.2.1, ?_⟩
            have h6 := h5.2.2.2.2
            simp only [List.length_append, List.length_cons,
              List.length_nil] at h6 ⊢
            omega

/-- Counter accounting of the cash-secured-put row loop. -/
theorem processPutRows_counts {symbol : String} {expiry_dt : ℤ} {u : ℚ}
    {days : ℤ} :
    ∀ (rows : List ChainRow) (results : List OptionQuote) (stats : Stats)
      (rs : List OptionQuote) (stats' : Stats),
      processPutRows symbol expiry_dt u days rows results stats =
        (.ok rs, stats') →
      stats'.kept = rs.length ∧
      stats'.total_rows = stats.total_rows ∧
      stats'.error = stats.error ∧
      stats'.missing_bid + stats'.not_otm + stats'.invalid_strike + rs.length =
        stats.missing_bid + stats.not_otm + stats.invalid_strike +
          results.length + rows.length := by
  intro rows
  induction rows with
  | nil =>
    intro results stats rs stats' h
    simp only [processPutRows, Prod.mk.injEq, Except.ok.injEq] at h
    obtain ⟨h1, h2⟩ := h
    subst h1
    rw [← h2]
    simp
  | cons row rest ih =>
    intro results stats rs stats' h
    simp only [processPutRows] at h
    cases hp : _calculate_premium row with
    | none =>
      simp only [hp] at h
      have h5 := ih _ _ _ _ h
      try dsimp only at h5
      refine ⟨h5.1, h5.2.1, h5.2.2.1, ?_⟩
      have h6 := h5.2.2.2
      simp only [List.length_cons]
      omega
    | some premium =>
      simp only [hp] at h
      by_cases hpe : premium ≤ 0
      · rw [if_pos hpe] at h
        have h5 := ih _ _ _ _ h
        try dsimp only at h5
        refine ⟨h5.1, h5.2.1, h5.2.2.1, ?_⟩
        have h6 := h5.2.2.2
        simp only [List.length_cons]
        omega
      · rw [if_neg hpe] at h
        cases hs : row.strike with
        | none =>
          simp only [hs] at h
          simp at h
        | some strike =>
          simp only [hs] at h
          by_cases hso : u ≤ strike
          · rw [if_pos hso] at h
            have h5 := ih _ _ _ _ h
            try dsimp only at h5
            refine ⟨h5.1, h5.2.1, h5.2.2.1, ?_⟩
            have h6 := h5.2.2.2
            simp only [List.length_cons]
            omega
          · rw [if_neg hso] at h
            by_cases hsz : strike ≤ 0
            · rw [if_pos hsz] at h
              have h5 := ih _ _ _ _ h
              try dsimp only at h5
              refine ⟨h5.1, h5.2.1, h5.2.2.1, ?_⟩
              have h6 := h5.2.2.2
              simp only [List.length_cons]
              omega
            · rw [if_neg hsz] at h
              have h5 := ih _ _ _ _ h
              try dsimp only at h5
              refine ⟨h5.1, h5.2.1, h5.2.2.1, ?_⟩
              have h6 := h5.2.2.2
              simp only [List.length_append, List.length_cons,
                List.length_nil] at h6 ⊢
              omega

/-- The covered-call row loop completes without an exception when every row
carries a strike value. -/
theorem processCallRows_ok_of_strikes {symbol : String} {expiry_dt : ℤ}
    {u : ℚ} {days : ℤ} :
    ∀ (rows : List ChainRow), (∀ row ∈ rows, row.strike.isSome) →
    ∀ (results : List OptionQuote) (stats : Stats),
      ∃ rs stats', processCallRows symbol expiry_dt u days rows results stats =
        (.ok rs, stats') := by
  intro rows
  induction rows with
  | nil =>
    intro _ results stats
    exact ⟨results, _, rfl⟩
  | cons row rest ih =>
    intro hstr results stats
    have hrest : ∀ r ∈ rest, r.strike.isSome :=
      fun r hr => hstr r (List.mem_cons_of_mem _ hr)
    simp only [processCallRows]
    cases hp : _calculate_premium row with
    | none => exact ih hrest _ _
    | some premium =>
      dsimp only
      by_cases hpe : premium ≤ 0
      · rw [if_pos hpe]
        exact ih hrest _ _
      · rw [if_neg hpe]
        cases hs : row.strike with
        | none =>
          have := hstr row (List.mem_cons_self _ _)
          rw [hs] at this
          simp at this
        | some strike =>
          dsimp only
          by_cases hso : strike ≤ u
          · rw [if_pos hso]
            exact ih hrest _ _
          · rw [if_neg hso]
            exact ih hrest _ _

/-- The cash-secured-put row loop completes without an exception when every
row carries a strike value. -/
theorem processPutRows_ok_of_strikes {symbol : String} {expiry_dt : ℤ}
    {u : ℚ} {days : ℤ} :
    ∀ (rows : List ChainRow), (∀ row ∈ rows, row.strike.isSome) →
    ∀ (results : List OptionQuote) (stats : Stats),
      ∃ rs stats', processPutRows symbol expiry_dt u days rows results stats =
        (.ok rs, stats') := by
  intro rows
  induction rows with
  | nil =>
    intro _ results stats
    exact ⟨results, _, rfl⟩
  | cons row rest ih =>
    intro hstr results stats
    have hrest : ∀ r ∈ rest, r.strike.isSome :=
      fun r hr => hstr r (List.mem_cons_of_mem _ hr)
    simp only [processPutRows]
    cases hp : _calculate_premium row with
    | none => exact ih hrest _ _
    | some premium =>
      dsimp only
      by_cases hpe : premium ≤ 0
      · rw [if_pos hpe]
        exact ih hrest _ _
      · rw [if_neg hpe]
        cases hs : row.strike with
        | none =>
          have := hstr row (List.mem_cons_self _ _)
          rw [hs] at this
          simp at this
        | some strike =>
          dsimp only
          by_cases hso : u ≤ strike
          · rw [if_pos hso]
            exact ih hrest _ _
          · rw [if_neg hso]
            by_cases hsz : strike ≤ 0
            · rw [if_pos hsz]
              exact ih hrest _ _
            · rw [if_neg hsz]
              exact ih hrest _ _

/-- Every covered-call fetch either returns an early empty result with a
zeroed stats record and an error code, or stably sorts the row-loop results, or
propagates an exception. -/
theorem fetch_cc_cases (env : Env) (symbol expiry : String) :
    (∃ c, fetch_covered_call_quotes env symbol expiry =
        (.ok [], { emptyStats with error := c }))
    ∨ (∃ u chain e rs stats2,
        _get_underlying_price env symbol = some u ∧ ¬ u ≤ 0 ∧
        env.chains symbol expiry = some chain ∧
        env.parse expiry = some e ∧
        _calculate_days_to_expiry e env.today ≠ 0 ∧
        processCallRows symbol e u (_calculate_days_to_expiry e env.today)
          chain.calls [] { emptyStats with total_rows := chain.calls.length } =
          (.ok rs, stats2) ∧
        fetch_covered_call_quotes env symbol expiry =
          (.ok (List.insertionSort aprDescending rs), stats2))
    ∨ (∃ msg stats2,
        fetch_covered_call_quotes env symbol expiry = (.error msg, stats2)) := by
  cases hup : _get_underlying_price env symbol with
  | none =>
    exact Or.inl ⟨"missing_underlying_price",
      by simp only [fetch_covered_call_quotes, _init_stats, hup]⟩
  | some u =>
    by_cases hu : u ≤ 0
    · exact Or.inl ⟨"missing_underlying_price",
        by simp only [fetch_covered_call_quotes, _init_stats, hup, if_pos hu]⟩
    · cases hch : env.chains symbol expiry with
      | none =>
        exact Or.inl ⟨"option_chain_error",
          by simp only [fetch_covered_call_quotes, _init_stats, hup,
            if_neg hu, hch]⟩
      | some chain =>
        cases hpa : env.parse expiry with
        | none =>
          refine Or.inr (Or.inr ⟨"ValueError: strptime", emptyStats, ?_⟩)
          simp only [fetch_covered_call_quotes, _init_stats, hup, if_neg hu,
            hch, hpa]
        | some e =>
          by_cases hd : _calculate_days_to_expiry e env.today = 0
          · exact Or.inl ⟨"non_positive_days_to_expiry",
              by simp only [fetch_covered_call_quotes, _init_stats, hup,
                if_neg hu, hch, hpa, if_pos hd]⟩
          · rcases hloop : processCallRows symbol e u
                (_calculate_days_to_expiry e env.today) chain.calls []
                { emptyStats with total_rows := chain.calls.length }
              with ⟨res, stats2⟩
            cases res with
            | ok rs =>
              refine Or.inr (Or.inl ⟨u, chain, e, rs, stats2, rfl, hu, rfl,
                rfl, hd, hloop, ?_⟩)
              simp only [fetch_covered_call_quotes, _init_stats, hup,
                if_neg hu, hch, hpa, if_neg hd, hloop]
            | error msg =>
              refine Or.inr (Or.inr ⟨msg, stats2, ?_⟩)
              simp only [fetch_covered_call_quotes, _init_stats, hup,
                if_neg hu, hch, hpa, if_neg hd, hloop]

/-- Every cash-secured-put fetch either returns an early empty result with a
zeroed stats record and an error code, or stably sorts the row-loop results, or
propagates an exception. -/
theorem fetch_csp_cases (env : Env) (symbol expiry : String) :
    (∃ c, fetch_cash_secured_put_quotes env symbol expiry =
        (.ok [], { emptyStats with error := c }))
    ∨ (∃ u chain e rs stats2,
        _get_underlying_price env symbol = some u ∧ ¬ u ≤ 0 ∧
        env.chains symbol expiry = some chain ∧
        env.parse expiry = some e ∧
        _calculate_days_to_expiry e env.today ≠ 0 ∧
        processPutRows symbol e u (_calculate_days_to_expiry e env.today)
          chain.puts [] { emptyStats with total_rows := chain.puts.length } =
          (.ok rs, stats2) ∧
        fetch_cash_secured_put_quotes env symbol expiry =
          (.ok (List.insertionSort aprDescending rs), stats2))
    ∨ (∃ msg stats2,
        fetch_cash_secured_put_quotes env symbol expiry =
          (.error msg, stats2)) := by
  cases hup : _get_underlying_price env symbol with
  | none =>
    exact Or.inl ⟨"missing_underlying_price",
      by simp only [fetch_cash_secured_put_quotes, _init_stats, hup]⟩
  | some u =>
    by_cases hu : u ≤ 0
    · exact Or.inl ⟨"missing_underlying_price",
        by simp only [fetch_cash_secured_put_quotes, _init_stats, hup,
          if_pos hu]⟩
    · cases hch : env.chains symbol expiry with
      | none =>
        exact Or.inl ⟨"option_chain_error",
          by simp only [fetch_cash_secured_put_quotes, _init_stats, hup,
            if_neg hu, hch]⟩
      | some chain =>
        cases hpa : env.parse expiry with
        | none =>
          refine Or.inr (Or.inr ⟨"ValueError: strptime", emptyStats, ?_⟩)
          simp only [fetch_cash_secured_put_quotes, _init_stats, hup,
            if_neg hu, hch, hpa]
        | some e =>
          by_cases hd : _calculate_days_to_expiry e env.today = 0
          · exact Or.inl ⟨"non_positive_days_to_expiry",
              by simp only [fetch_cash_secured_put_quotes, _init_stats, hup,
                if_neg hu, hch, hpa, if_pos hd]⟩
          · rcases hloop : processPutRows symbol e u
                (_calculate_days_to_expiry e env.today) chain.puts []
                { emptyStats with total_rows := chain.puts.length }
              with ⟨res, stats2⟩
            cases res with
            | ok rs =>
              refine Or.inr (Or.inl ⟨u, chain, e, rs, stats2, rfl, hu, rfl,
                rfl, hd, hloop, ?_⟩)
              simp only [fetch_cash_secured_put_quotes, _init_stats, hup,
                if_neg hu, hch, hpa, if_neg hd, hloop]
            | error msg =>
              refine Or.inr (Or.inr ⟨msg, stats2, ?_⟩)
              simp only [fetch_cash_secured_put_quotes, _init_stats, hup,
                if_neg hu, hch, hpa, if_neg hd, hloop]

/-- The resolved underlying price depends only on the provider's fast quote
and daily close for that symbol. -/
theorem _get_underlying_price_congr (env1 env2 : Env) (symbol : String)
    (hf : env1.fastLastPrice symbol = env2.fastLastPrice symbol)
    (hd : env1.dailyClose symbol = env2.dailyClose symbol) :
    _get_underlying_price env1 symbol = _get_underlying_price env2 symbol := by
  unfold _get_underlying_price
  rw [hf, hd]

/-! The claims. -/

/-- C1: every quote returned by `fetch_covered_call_quotes` satisfies
`apr = (premium / underlying_price) * (365 / days_to_expiry) * 100` and
`break_even_price = underlying_price - premium` exactly, and every quote
returned by `fetch_cash_secured_put_quotes` satisfies
`apr = (premium / strike) * (365 / days_to_expiry) * 100` and
`break_even_price = strike - premium` exactly, with no rounding applied. -/
theorem c1_apr_formula_exact :
    (∀ (env : Env) (symbol expiry : String) (qs : List OptionQuote)
       (stats : Stats),
      fetch_covered_call_quotes env symbol expiry = (.ok qs, stats) →
      ∀ q ∈ qs,
        q.apr = (q.premium / q.underlying_price) *
          (365 / (q.days_to_expiry : ℚ)) * 100 ∧
        q.break_even_price = q.underlying_price - q.premium)
    ∧ (∀ (env : Env) (symbol expiry : String) (qs : List OptionQuote)
       (stats : Stats),
      fetch_cash_secured_put_quotes env symbol expiry = (.ok qs, stats) →
      ∀ q ∈ qs,
        q.apr = (q.premium / q.strike) * (365 / (q.days_to_expiry : ℚ)) * 100 ∧
        q.break_even_price = q.strike - q.premium) := by
  constructor
  · intro env symbol expiry qs stats h q hq
    rcases fetch_cc_cases env symbol expiry with
      ⟨c, hcase⟩ |
      ⟨u, chain, e, rs, stats2, _, _, _, _, _, hloop, hfetch⟩ |
      ⟨msg, stats2, hcase⟩
    · rw [h] at hcase
      simp only [Prod.mk.injEq, Except.ok.injEq] at hcase
      rw [hcase.1] at hq
      exact absurd hq (List.not_mem_nil q)
    · rw [h] at hfetch
      simp only [Prod.mk.injEq, Except.ok.injEq] at hfetch
      rw [hfetch.1] at hq
      have hq' : q ∈ rs := (List.mem_insertionSort _).mp hq
      exact processCallRows_mem_of_ok
        (fun q => q.apr = (q.premium / q.underlying_price) *
            (365 / (q.days_to_expiry : ℚ)) * 100 ∧
          q.break_even_price = q.underlying_price - q.premium)
        (fun _ _ _ _ _ _ _ => ⟨rfl, rfl⟩)
        chain.calls [] _ rs stats2 (by simp) hloop q hq'
    · rw [h] at hcase
      simp at hcase
  · intro env symbol expiry qs stats h q hq
    rcases fetch_csp_cases env symbol expiry with
      ⟨c, hcase⟩ |
      ⟨u, chain, e, rs, stats2, _, _, _, _, _, hloop, hfetch⟩ |
      ⟨msg, stats2, hcase⟩
    · rw [h] at hcase
      simp only [Prod.mk.injEq, Except.ok.injEq] at hcase
      rw [hcase.1] at hq
      exact absurd hq (List.not_mem_nil q)
    · rw [h] at hfetch
      simp only [Prod.mk.injEq, Except.ok.injEq] at hfetch
      rw [hfetch.1] at hq
      have hq' : q ∈ rs := (List.mem_insertionSort _).mp hq
      exact processPutRows_mem_of_ok
        (fun q => q.apr = (q.premium / q.strike) *
            (365 / (q.days_to_expiry : ℚ)) * 100 ∧
          q.break_even_price = q.strike - q.premium)
        (fun _ _ _ _ _ _ _ _ => ⟨rfl, rfl⟩)
        chain.puts [] _ rs stats2 (by simp) hloop q hq'
    · rw [h] at hcase
      simp at hcase

unseal Rat.mul Rat.add Rat.sub Rat.inv in
/-- C1 witness: on the concrete environment `env0` the covered-call fetch
returns `q110` and its APR and break-even satisfy the formulas. -/
theorem c1_witness :
    q110.apr = (q110.premium / q110.underlying_price) *
      (365 / (q110.days_to_expiry : ℚ)) * 100 ∧
    q110.break_even_price = q110.underlying_price - q110.premium :=
  c1_apr_formula_exact.1 env0 "XYZ" "2026-01-30" [q110, q112, q105] callStats0
    rfl q110 (by simp)

/-- C2: every covered-call quote has `strike > underlying_price`, every
cash-secured-put quote has `0 < strike < underlying_price`, and every quote
of either fetch has `premium > 0`. -/
theorem c2_otm_invariants :
    (∀ (env : Env) (symbol expiry : String) (qs : List OptionQuote)
       (stats : Stats),
      fetch_covered_call_quotes env symbol expiry = (.ok qs, stats) →
      ∀ q ∈ qs, q.underlying_price < q.strike ∧ 0 < q.premium)
    ∧ (∀ (env : Env) (symbol expiry : String) (qs : List OptionQuote)
       (stats : Stats),
      fetch_cash_secured_put_quotes env symbol expiry = (.ok qs, stats) →
      ∀ q ∈ qs, 0 < q.strike ∧ q.strike < q.underlying_price ∧
        0 < q.premium) := by
  constructor
  · intro env symbol expiry qs stats h q hq
    rcases fetch_cc_cases env symbol expiry with
      ⟨c, hcase⟩ |
      ⟨u, chain, e, rs, stats2, _, _, _, _, _, hloop, hfetch⟩ |
      ⟨msg, stats2, hcase⟩
    · rw [h] at hcase
      simp only [Prod.mk.injEq, Except.ok.injEq] at hcase
      rw [hcase.1] at hq
      exact absurd hq (List.not_mem_nil q)
    · rw [h] at hfetch
      simp only [Prod.mk.injEq, Except.ok.injEq] at hfetch
      rw [hfetch.1] at hq
      have hq' : q ∈ rs := (List.mem_insertionSort _).mp hq
      exact processCallRows_mem_of_ok
        (fun q => q.underlying_price < q.strike ∧ 0 < q.premium)
        (fun _ _ _ _ hpe _ hso => ⟨lt_of_not_le hso, lt_of_not_le hpe⟩)
        chain.calls [] _ rs stats2 (by simp) hloop q hq'
    · rw [h] at hcase
      simp at hcase
  · intro env symbol expiry qs stats h q hq
    rcases fetch_csp_cases env symbol expiry with
      ⟨c, hcase⟩ |
      ⟨u, chain, e, rs, stats2, _, _, _, _, _, hloop, hfetch⟩ |
      ⟨msg, stats2, hcase⟩
    · rw [h] at hcase
      simp only [Prod.mk.injEq, Except.ok.injEq] at hcase
      rw [hcase.1] at hq
      exact absurd hq (List.not_mem_nil q)
    · rw [h] at hfetch
      simp only [Prod.mk.injEq, Except.ok.injEq] at hfetch
      rw [hfetch.1] at hq
      have hq' : q ∈ rs := (List.mem_insertionSort _).mp hq
      exact processPutRows_mem_of_ok
        (fun q => 0 < q.strike ∧ q.strike < q.underlying_price ∧
          0 < q.premium)
        (fun _ _ _ _ hpe _ hso hsz =>
          ⟨lt_of_not_le hsz, lt_of_not_le hso, lt_of_not_le hpe⟩)
        chain.puts [] _ rs stats2 (by simp) hloop q hq'
    · rw [h] at hcase
      simp at hcase

unseal Rat.mul Rat.add Rat.sub Rat.inv in
/-- C2 witness: on `env0` the put fetch returns `qput90`, whose strike lies
strictly between zero and the underlying price and whose premium is
positive. -/
theorem c2_witness :
    0 < qput90.strike ∧ qput90.strike < qput90.underlying_price ∧
    0 < qput90.premium :=
  c2_otm_invariants.2 env0 "XYZ" "2026-01-30" [qput90] putStats0
    rfl qput90 (by simp)

/-- C3: premium derivation returns the first present-and-positive value in
the order bid, last-traded price, ask, and `none` when no field qualifies;
a row with `bid = 0, last = 5, ask = 6` yields premium `5`; and a row whose
premium derivation fails is dropped by both row loops without producing a
quote (counted as `missing_bid`). -/
theorem c3_premium_cascade :
    (∀ row : ChainRow,
      _calculate_premium row =
        ([row.bid, row.lastPrice, row.ask].reduceOption).find?
          (fun x => decide (0 < x)))
    ∧ _calculate_premium
        { strike := some 110, bid := some 0, ask := some 6,
          lastPrice := some 5, impliedVolatility := none } = some 5
    ∧ (∀ (symbol : String) (expiry_dt : ℤ) (u : ℚ) (days : ℤ)
        (row : ChainRow) (rest : List ChainRow) (results : List OptionQuote)
        (stats : Stats),
      _calculate_premium row = none →
      processCallRows symbol expiry_dt u days (row :: rest) results stats =
        processCallRows symbol expiry_dt u days rest results
          { stats with missing_bid := stats.missing_bid + 1 } ∧
      processPutRows symbol expiry_dt u days (row :: rest) results stats =
        processPutRows symbol expiry_dt u days rest results
          { stats with missing_bid := stats.missing_bid + 1 }) := by
  refine ⟨?_, rfl, ?_⟩
  · intro row
    rcases row with ⟨st, b, a, lp, iv⟩
    cases b with
    | none =>
      cases lp with
      | none =>
        cases a with
        | none => simp [_calculate_premium, List.reduceOption]
        | some av =>
          by_cases hav : 0 < av <;>
            simp [_calculate_premium, List.reduceOption, hav]
      | some lv =>
        by_cases hlv : 0 < lv
        · simp [_calculate_premium, List.reduceOption, hlv]
        · cases a with
          | none => simp [_calculate_premium, List.reduceOption, hlv]
          | some av =>
            by_cases hav : 0 < av <;>
              simp [_calculate_premium, List.reduceOption, hlv, hav]
    | some bv =>
      by_cases hbv : 0 < bv
      · simp [_calculate_premium, List.reduceOption, hbv]
      · cases lp with
        | none =>
          cases a with
          | none => simp [_calculate_premium, List.reduceOption, hbv]
          | some av =>
            by_cases hav : 0 < av <;>
              simp [_calculate_premium, List.reduceOption, hbv, hav]
        | some lv =>
          by_cases hlv : 0 < lv
          · simp [_calculate_premium, List.reduceOption, hbv, hlv]
          · cases a with
            | none => simp [_calculate_premium, List.reduceOption, hbv, hlv]
            | some av =>
              by_cases hav : 0 < av <;>
                simp [_calculate_premium, List.reduceOption, hbv, hlv, hav]
  · intro symbol expiry_dt u days row rest results stats hnone
    constructor
    · simp only [processCallRows, hnone]
    · simp only [processPutRows, hnone]

/-- C3 witness: the all-missing row of `chain0` is dropped by the call row
loop with its `missing_bid` counter bumped. -/
theorem c3_witness :
    processCallRows "XYZ" 30 100 30
        [{ strike := some 120, bid := none, ask := none, lastPrice := none,
           impliedVolatility := none }] [] emptyStats =
      processCallRows "XYZ" 30 100 30 [] []
        { emptyStats with missing_bid := emptyStats.missing_bid + 1 } :=
  (c3_premium_cascade.2.2 "XYZ" 30 100 30
    { strike := some 120, bid := none, ask := none, lastPrice := none,
      impliedVolatility := none } [] [] emptyStats rfl).1

/-- C4: whenever a fetch reaches its row loop, the sequence it returns is
the row-loop results stably sorted by descending APR: it is pairwise sorted
descending, and for every APR value the subsequence of quotes carrying that
value is exactly the subsequence the loop built in raw-chain order, so
permuting non-tied rows while preserving the relative order of tied rows
leaves the order of tied APRs unchanged. -/
theorem c4_sorted_stable :
    (∀ (env : Env) (symbol expiry : String) (u : ℚ) (chain : OptionChain)
       (e : ℤ) (rs : List OptionQuote) (stats2 : Stats),
      _get_underlying_price env symbol = some u → ¬ u ≤ 0 →
      env.chains symbol expiry = some chain →
      env.parse expiry = some e →
      _calculate_days_to_expiry e env.today ≠ 0 →
      processCallRows symbol e u (_calculate_days_to_expiry e env.today)
          chain.calls [] { emptyStats with total_rows := chain.calls.length } =
        (.ok rs, stats2) →
      fetch_covered_call_quotes env symbol expiry =
        (.ok (List.insertionSort aprDescending rs), stats2) ∧
      (List.insertionSort aprDescending rs).Pairwise
        (fun a b => b.apr ≤ a.apr) ∧
      ∀ v : ℚ, (List.insertionSort aprDescending rs).filter
          (fun q => decide (q.apr = v)) =
        rs.filter (fun q => decide (q.apr = v)))
    ∧ (∀ (env : Env) (symbol expiry : String) (u : ℚ) (chain : OptionChain)
       (e : ℤ) (rs : List OptionQuote) (stats2 : Stats),
      _get_underlying_price env symbol = some u → ¬ u ≤ 0 →
      env.chains symbol expiry = some chain →
      env.parse expiry = some e →
      _calculate_days_to_expiry e env.today ≠ 0 →
      processPutRows symbol e u (_calculate_days_to_expiry e env.today)
          chain.puts [] { emptyStats with total_rows := chain.puts.length } =
        (.ok rs, stats2) →
      fetch_cash_secured_put_quotes env symbol expiry =
        (.ok (List.insertionSort aprDescending rs), stats2) ∧
      (List.insertionSort aprDescending rs).Pairwise
        (fun a b => b.apr ≤ a.apr) ∧
      ∀ v : ℚ, (List.insertionSort aprDescending rs).filter
          (fun q => decide (q.apr = v)) =
        rs.filter (fun q => decide (q.apr = v))) := by
  constructor
  · intro env symbol expiry u chain e rs stats2 hup hu hch hpa hd hloop
    refine ⟨?_, ?_, ?_⟩
    · simp only [fetch_covered_call_quotes, _init_stats, hup, if_neg hu, hch,
        hpa, if_neg hd, hloop]
    · exact List.sorted_insertionSort aprDescending rs
    · intro v
      refine insertionSort_filter_tied aprDescending _ ?_ rs
      intro a b ha hb
      simp only [decide_eq_true_eq] at ha hb
      show b.apr ≤ a.apr
      rw [ha, hb]
  · intro env symbol expiry u chain e rs stats2 hup hu hch hpa hd hloop
    refine ⟨?_, ?_, ?_⟩
    · simp only [fetch_cash_secured_put_quotes, _init_stats, hup, if_neg hu,
        hch, hpa, if_neg hd, hloop]
    · exact List.sorted_insertionSort aprDescending rs
    · intro v
      refine insertionSort_filter_tied aprDescending _ ?_ rs
      intro a b ha hb
      simp only [decide_eq_true_eq] at ha hb
      show b.apr ≤ a.apr
      rw [ha, hb]

unseal Rat.mul Rat.add Rat.sub Rat.inv in
/-- C4 witness: on `env0` the covered-call fetch sorts the loop results
`[q105, q110, q112]`, and the two quotes tied at APR `365/6` keep their
raw-chain order through the sort. -/
theorem c4_witness :
    fetch_covered_call_quotes env0 "XYZ" "2026-01-30" =
      (.ok (List.insertionSort aprDescending [q105, q110, q112]),
        callStats0) ∧
    (List.insertionSort aprDescending [q105, q110, q112]).filter
        (fun q => decide (q.apr = 365/6)) =
      [q105, q110, q112].filter (fun q => decide (q.apr = 365/6)) :=
  ⟨(c4_sorted_stable.1 env0 "XYZ" "2026-01-30" 100 chain0 30
      [q105, q110, q112] callStats0 rfl (by norm_num) rfl rfl (by decide)
      rfl).1,
   (c4_sorted_stable.1 env0 "XYZ" "2026-01-30" 100 chain0 30
      [q105, q110, q112] callStats0 rfl (by norm_num) rfl rfl (by decide)
      rfl).2.2 (365/6)⟩

/-- C5: days-to-expiry is computed as the calendar-day difference between
the expiry date and the current UTC date, floored at zero; and whenever it
resolves to exactly zero, both fetches return an empty sequence and record
error code `non_positive_days_to_expiry`, regardless of the option-chain
rows. -/
theorem c5_same_day_expiry :
    (∀ e t : ℤ, _calculate_days_to_expiry e t = max (e - t) 0)
    ∧ (∀ (env : Env) (symbol expiry : String) (u : ℚ) (chain : OptionChain)
       (e : ℤ),
      _get_underlying_price env symbol = some u → ¬ u ≤ 0 →
      env.chains symbol expiry = some chain →
      env.parse expiry = some e →
      _calculate_days_to_expiry e env.today = 0 →
      fetch_covered_call_quotes env symbol expiry =
        (.ok [], { emptyStats with error := "non_positive_days_to_expiry" }) ∧
      fetch_cash_secured_put_quotes env symbol expiry =
        (.ok [], { emptyStats with error := "non_positive_days_to_expiry" })) := by
  refine ⟨fun e t => rfl, ?_⟩
  intro env symbol expiry u chain e hup hu hch hpa hd
  constructor
  · simp only [fetch_covered_call_quotes, _init_stats, hup, if_neg hu, hch,
      hpa, if_pos hd]
  · simp only [fetch_cash_secured_put_quotes, _init_stats, hup, if_neg hu,
      hch, hpa, if_pos hd]

/-- C5 witness: on `envToday`, whose current date equals the expiry date,
both fetches return the empty sequence with the
`non_positive_days_to_expiry` error code even though the chain has rows. -/
theorem c5_witness :
    fetch_covered_call_quotes envToday "XYZ" "2026-01-30" =
      (.ok [], { emptyStats with error := "non_positive_days_to_expiry" }) ∧
    fetch_cash_secured_put_quotes envToday "XYZ" "2026-01-30" =
      (.ok [], { emptyStats with error := "non_positive_days_to_expiry" }) :=
  c5_same_day_expiry.2 envToday "XYZ" "2026-01-30" 100 chain0 30 rfl
    (by norm_num) rfl rfl (by decide)

/-- C6 (counterexample): the claim that no input makes a fetch raise fails:
on `envKeyErr`, whose chain holds a call row with a positive bid but no
strike value, `fetch_covered_call_quotes` propagates a `KeyError` from the
unguarded `row["strike"]` access instead of returning an empty sequence. -/
theorem c6_counterexample :
    (fetch_covered_call_quotes envKeyErr "XYZ" "2026-01-30").1 =
      .error "KeyError: strike" := rfl

/-- C6 (amended): `list_option_expiries` never raises and converts provider
failure to an empty sequence, and the two fetches return without an
exception whenever the expiry string parses as a date and every retrieved
chain row carries a strike value; a chain row with a usable premium but a
missing strike (or an expiry accepted by the provider that fails date
parsing, both outside the `try` blocks) instead raises to the caller. -/
theorem c6_no_raise_amended :
    (∀ (env : Env) (symbol : String), env.expiriesOf symbol = none →
      list_option_expiries env symbol = [])
    ∧ (∀ (env : Env) (symbol expiry : String),
      (env.parse expiry).isSome →
      (∀ chain, env.chains symbol expiry = some chain →
        ∀ row ∈ chain.calls, row.strike.isSome) →
      ((fetch_covered_call_quotes env symbol expiry).1.isOk = true))
    ∧ (∀ (env : Env) (symbol expiry : String),
      (env.parse expiry).isSome →
      (∀ chain, env.chains symbol expiry = some chain →
        ∀ row ∈ chain.puts, row.strike.isSome) →
      ((fetch_cash_secured_put_quotes env symbol expiry).1.isOk = true)) := by
  refine ⟨?_, ?_, ?_⟩
  · intro env symbol h
    simp [list_option_expiries, h]
  · intro env symbol expiry hparse hstrike
    cases hup : _get_underlying_price env symbol with
    | none =>
      simp [fetch_covered_call_quotes, _init_stats, hup, Except.isOk, Except.toBool]
    | some u =>
      by_cases hu : u ≤ 0
      · simp [fetch_covered_call_quotes, _init_stats, hup, if_pos hu,
          Except.isOk, Except.toBool]
      · cases hch : env.chains symbol expiry with
        | none =>
          simp [fetch_covered_call_quotes, _init_stats, hup, if_neg hu, hch,
            Except.isOk, Except.toBool]
        | some chain =>
          obtain ⟨e, hpa⟩ := Option.isSome_iff_exists.mp hparse
          by_cases hd : _calculate_days_to_expiry e env.today = 0
          · simp [fetch_covered_call_quotes, _init_stats, hup, if_neg hu,
              hch, hpa, if_pos hd, Except.isOk, Except.toBool]
          · obtain ⟨rs, stats', hloop⟩ :=
              @processCallRows_ok_of_strikes symbol e u
                (_calculate_days_to_expiry e env.today) chain.calls
                (hstrike chain hch)
                [] { emptyStats with total_rows := chain.calls.length }
            simp [fetch_covered_call_quotes, _init_stats, hup, if_neg hu,
              hch, hpa, if_neg hd, hloop, Except.isOk, Except.toBool]
  · intro env symbol expiry hparse hstrike
    cases hup : _get_underlying_price env symbol with
    | none =>
      simp [fetch_cash_secured_put_quotes, _init_stats, hup, Except.isOk, Except.toBool]
    | some u =>
      by_cases hu : u ≤ 0
      · simp [fetch_cash_secured_put_quotes, _init_stats, hup, if_pos hu,
          Except.isOk, Except.toBool]
      · cases hch : env.chains symbol expiry with
        | none =>
          simp [fetch_cash_secured_put_quotes, _init_stats, hup, if_neg hu,
            hch, Except.isOk, Except.toBool]
        | some chain =>
          obtain ⟨e, hpa⟩ := Option.isSome_iff_exists.mp hparse
          by_cases hd : _calculate_days_to_expiry e env.today = 0
          · simp [fetch_cash_secured_put_quotes, _init_stats, hup, if_neg hu,
              hch, hpa, if_pos hd, Except.isOk, Except.toBool]
          · obtain ⟨rs, stats', hloop⟩ :=
              @processPutRows_ok_of_strikes symbol e u
                (_calculate_days_to_expiry e env.today) chain.puts
                (hstrike chain hch)
                [] { emptyStats with total_rows := chain.puts.length }
            simp [fetch_cash_secured_put_quotes, _init_stats, hup, if_neg hu,
              hch, hpa, if_neg hd, hloop, Except.isOk, Except.toBool]

unseal Rat.mul Rat.add Rat.sub Rat.inv in
/-- C6 witness: on `env0`, whose chain rows all carry strikes and whose
expiry parses, both fetches return without an exception, and the failing
expiry listing of `envAlt` yields the empty sequence. -/
theorem c6_witness :
    list_option_expiries envAlt "XYZ" = [] ∧
    (fetch_covered_call_quotes env0 "XYZ" "2026-01-30").1.isOk = true ∧
    (fetch_cash_secured_put_quotes env0 "XYZ" "2026-01-30").1.isOk = true :=
  ⟨c6_no_raise_amended.1 envAlt "XYZ" rfl,
   c6_no_raise_amended.2.1 env0 "XYZ" "2026-01-30" rfl
     (fun chain hchain row hrow => by
       rw [show chain = chain0 from (Option.some.injEq _ _).mp hchain.symm] at hrow
       fin_cases hrow <;> rfl),
   c6_no_raise_amended.2.2 env0 "XYZ" "2026-01-30" rfl
     (fun chain hchain row hrow => by
       rw [show chain = chain0 from (Option.some.injEq _ _).mp hchain.symm] at hrow
       fin_cases hrow <;> rfl)⟩

unseal Rat.mul Rat.add Rat.sub Rat.inv in
/-- C7 (counterexample): the claim that the fast quote field is used only
when present and positive fails: on `envNeg` the fast field holds `-1` and
the daily close holds `100`, so the spec's resolution yields the positive
price `100`, yet the code adopts the nonzero `-1` without falling back and
then records `missing_underlying_price` with an empty result. -/
theorem c7_counterexample :
    _get_underlying_price_spec envNeg "XYZ" = some 100 ∧
    _get_underlying_price envNeg "XYZ" = some (-1) ∧
    fetch_covered_call_quotes envNeg "XYZ" "2026-01-30" =
      (.ok [], { emptyStats with error := "missing_underlying_price" }) ∧
    fetch_cash_secured_put_quotes envNeg "XYZ" "2026-01-30" =
      (.ok [], { emptyStats with error := "missing_underlying_price" }) :=
  ⟨rfl, rfl, rfl, rfl⟩

/-- C7 (amended): the fast quote field is used whenever it is present and
nonzero (Python truthiness, so also when negative); only when it is absent
or zero does resolution fall back to the most recent daily close; and
whenever the resolved price is absent or non-positive, both fetches return
an empty sequence and record `missing_underlying_price`. -/
theorem c7_underlying_price_amended :
    (∀ (env : Env) (symbol : String) (p : ℚ),
      env.fastLastPrice symbol = some p → p ≠ 0 →
      _get_underlying_price env symbol = some p)
    ∧ (∀ (env : Env) (symbol : String),
      env.fastLastPrice symbol = none ∨ env.fastLastPrice symbol = some 0 →
      _get_underlying_price env symbol = env.dailyClose symbol)
    ∧ (∀ (env : Env) (symbol expiry : String),
      (∀ u, _get_underlying_price env symbol = some u → u ≤ 0) →
      fetch_covered_call_quotes env symbol expiry =
        (.ok [], { emptyStats with error := "missing_underlying_price" }) ∧
      fetch_cash_secured_put_quotes env symbol expiry =
        (.ok [], { emptyStats with error := "missing_underlying_price" })) := by
  refine ⟨?_, ?_, ?_⟩
  · intro env symbol p hf hp
    simp [_get_underlying_price, hf, hp]
  · intro env symbol h
    rcases h with h | h <;> simp [_get_underlying_price, h]
  · intro env symbol expiry hnp
    cases hup : _get_underlying_price env symbol with
    | none =>
      constructor
      · simp only [fetch_covered_call_quotes, _init_stats, hup]
      · simp only [fetch_cash_secured_put_quotes, _init_stats, hup]
    | some u =>
      have hu : u ≤ 0 := hnp u hup
      constructor
      · simp only [fetch_covered_call_quotes, _init_stats, hup, if_pos hu]
      · simp only [fetch_cash_secured_put_quotes, _init_stats, hup,
          if_pos hu]

/-- C7 witness: on `env0` the fast field holds the nonzero `100` and is
adopted, and on `envNeg` the resolved price `-1` is non-positive so both
fetches record `missing_underlying_price`. -/
theorem c7_witness :
    _get_underlying_price env0 "XYZ" = some 100 ∧
    fetch_covered_call_quotes envNeg "XYZ" "2026-01-30" =
      (.ok [], { emptyStats with error := "missing_underlying_price" }) :=
  ⟨c7_underlying_price_amended.1 env0 "XYZ" 100 rfl (by norm_num),
   (c7_underlying_price_amended.2.2 envNeg "XYZ" "2026-01-30"
     (fun u h => by
       rw [show _get_underlying_price envNeg "XYZ" = some (-1) from rfl,
         Option.some.injEq] at h
       rw [← h]
       norm_num)).1⟩

unseal Rat.mul Rat.add Rat.sub Rat.inv in
/-- C8 (counterexample): the claim that the percent difference carries an
explicit sign fails: at strike `110` over underlying `100` the code
produces `"110.00 (10.00%)"`, not the `"110.00 (+10.00%)"` required by the
`{percent_diff:+.2f}` format of the claim. -/
theorem c8_counterexample :
    format_strike_with_percent 110 (some 100) = "110.00 (10.00%)" ∧
    format_strike_with_percent_spec 110 (some 100) = "110.00 (+10.00%)" ∧
    format_strike_with_percent 110 (some 100) ≠
      format_strike_with_percent_spec 110 (some 100) := by
  refine ⟨rfl, rfl, ?_⟩
  intro h
  rw [show format_strike_with_percent 110 (some 100) = "110.00 (10.00%)"
      from rfl,
    show format_strike_with_percent_spec 110 (some 100) = "110.00 (+10.00%)"
      from rfl] at h
  exact (by decide : "110.00 (10.00%)" ≠ "110.00 (+10.00%)") h

/-- C8 (amended): for a known nonzero underlying the strike is formatted as
`"{strike:.2f} ({percent_diff:.2f}%)"` with
`percent_diff = (strike - underlying) / underlying * 100` and no explicit
plus sign on the percent difference, and for an unknown (`None`) or zero
underlying as plain `"{strike:.2f}"`. -/
theorem c8_format_strike_amended (strike u : ℚ) (h : u ≠ 0) :
    format_strike_with_percent strike (some u) =
      fmt2 strike ++ " (" ++ fmt2 (((strike - u) / u) * 100) ++ "%)" ∧
    format_strike_with_percent strike none = fmt2 strike ∧
    format_strike_with_percent strike (some 0) = fmt2 strike := by
  refine ⟨?_, rfl, ?_⟩
  · simp only [format_strike_with_percent, if_neg h]
  · simp [format_strike_with_percent]

unseal Rat.mul Rat.add Rat.sub Rat.inv in
/-- C8 witness: the amended formatting at strike `110` over underlying
`100`. -/
theorem c8_witness :
    format_strike_with_percent 110 (some 100) =
      fmt2 110 ++ " (" ++ fmt2 (((110 - 100) / 100) * 100) ++ "%)" ∧
    format_strike_with_percent 110 none = fmt2 110 ∧
    format_strike_with_percent 110 (some 0) = fmt2 110 :=
  c8_format_strike_amended 110 100 (by norm_num)

/-- C9: each fetch is deterministic in its inputs: two environments that
agree on the current date, the parsed expiry, and the provider responses
for the queried symbol and expiry produce identical ranked outputs and
identical stats, for both fetch operations. -/
theorem c9_deterministic (env1 env2 : Env) (symbol expiry : String)
    (ht : env1.today = env2.today)
    (hpa : env1.parse expiry = env2.parse expiry)
    (hf : env1.fastLastPrice symbol = env2.fastLastPrice symbol)
    (hdc : env1.dailyClose symbol = env2.dailyClose symbol)
    (hch : env1.chains symbol expiry = env2.chains symbol expiry) :
    fetch_covered_call_quotes env1 symbol expiry =
      fetch_covered_call_quotes env2 symbol expiry ∧
    fetch_cash_secured_put_quotes env1 symbol expiry =
      fetch_cash_secured_put_quotes env2 symbol expiry := by
  have hup := _get_underlying_price_congr env1 env2 symbol hf hdc
  constructor
  · simp only [fetch_covered_call_quotes, _init_stats, hup, hpa, hch, ht]
  · simp only [fetch_cash_secured_put_quotes, _init_stats, hup, hpa, hch, ht]

/-- C9 witness: `env0` and `envAlt` agree on everything a fetch reads (they
differ only in the expiry listing), so both fetches coincide on them. -/
theorem c9_witness :
    fetch_covered_call_quotes env0 "XYZ" "2026-01-30" =
      fetch_covered_call_quotes envAlt "XYZ" "2026-01-30" ∧
    fetch_cash_secured_put_quotes env0 "XYZ" "2026-01-30" =
      fetch_cash_secured_put_quotes envAlt "XYZ" "2026-01-30" :=
  c9_deterministic env0 envAlt "XYZ" "2026-01-30" rfl rfl rfl rfl rfl

/-- C10: each fetch first resets the stats record stored for its
`(option_type, symbol.upper(), expiry)` key — the record left in the store
is independent of the store's previous contents and is exactly the record
of this call, all-zero on the earliest error path — and whenever a fetch
returns without an exception its counters satisfy
`total_rows = kept + missing_bid + not_otm` (calls), respectively
`total_rows = kept + missing_bid + not_otm + invalid_strike` (puts), with
`kept` the length of the returned sequence. -/
theorem c10_stats_accounting :
    (∀ (env : Env) (symbol expiry : String) (store1 store2 : Store),
      (fetch_covered_call_quotes_full env symbol expiry store1).2
          ("call", strUpper symbol, expiry) =
        (fetch_covered_call_quotes_full env symbol expiry store2).2
          ("call", strUpper symbol, expiry) ∧
      (fetch_cash_secured_put_quotes_full env symbol expiry store1).2
          ("put", strUpper symbol, expiry) =
        (fetch_cash_secured_put_quotes_full env symbol expiry store2).2
          ("put", strUpper symbol, expiry))
    ∧ (∀ (env : Env) (symbol expiry : String) (store : Store),
      (fetch_covered_call_quotes_full env symbol expiry store).2
          ("call", strUpper symbol, expiry) =
        some (fetch_covered_call_quotes env symbol expiry).2 ∧
      (fetch_cash_secured_put_quotes_full env symbol expiry store).2
          ("put", strUpper symbol, expiry) =
        some (fetch_cash_secured_put_quotes env symbol expiry).2)
    ∧ (∀ (env : Env) (symbol expiry : String),
      _get_underlying_price env symbol = none →
      (fetch_covered_call_quotes env symbol expiry).2 =
        { emptyStats with error := "missing_underlying_price" } ∧
      (fetch_cash_secured_put_quotes env symbol expiry).2 =
        { emptyStats with error := "missing_underlying_price" })
    ∧ (∀ (env : Env) (symbol expiry : String) (qs : List OptionQuote)
       (stats : Stats),
      fetch_covered_call_quotes env symbol expiry = (.ok qs, stats) →
      stats.total_rows = stats.kept + stats.missing_bid + stats.not_otm ∧
      stats.kept = qs.length)
    ∧ (∀ (env : Env) (symbol expiry : String) (qs : List OptionQuote)
       (stats : Stats),
      fetch_cash_secured_put_quotes env symbol expiry = (.ok qs, stats) →
      stats.total_rows = stats.kept + stats.missing_bid + stats.not_otm +
        stats.invalid_strike ∧
      stats.kept = qs.length) := by
  refine ⟨?_, ?_, ?_, ?_, ?_⟩
  · intro env symbol expiry store1 store2
    constructor
    · simp [fetch_covered_call_quotes_full]
    · simp [fetch_cash_secured_put_quotes_full]
  · intro env symbol expiry store
    constructor
    · simp [fetch_covered_call_quotes_full]
    · simp [fetch_cash_secured_put_quotes_full]
  · intro env symbol expiry hup
    constructor
    · simp only [fetch_covered_call_quotes, _init_stats, hup]
    · simp only [fetch_cash_secured_put_quotes, _init_stats, hup]
  · intro env symbol expiry qs stats h
    rcases fetch_cc_cases env symbol expiry with
      ⟨c, hcase⟩ |
      ⟨u, chain, e, rs, stats2, _, _, _, _, _, hloop, hfetch⟩ |
      ⟨msg, stats2, hcase⟩
    · rw [h] at hcase
      simp only [Prod.mk.injEq, Except.ok.injEq] at hcase
      rw [hcase.1, hcase.2]
      exact ⟨rfl, rfl⟩
    · rw [h] at hfetch
      simp only [Prod.mk.injEq, Except.ok.injEq] at hfetch
      obtain ⟨hq, hs⟩ := hfetch
      subst hq
      subst hs
      have hc := processCallRows_counts chain.calls [] _ rs _ hloop
      have h1 := hc.1
      have h2 := hc.2.1
      have h3 := hc.2.2.2.2
      clear hc
      dsimp only at h2 h3
      simp only [emptyStats, List.length_nil] at h2 h3
      constructor
      · omega
      · rw [h1]
        exact (List.length_insertionSort aprDescending rs).symm
    · rw [h] at hcase
      simp at hcase
  · intro env symbol expiry qs stats h
    rcases fetch_csp_cases env symbol expiry with
      ⟨c, hcase⟩ |
      ⟨u, chain, e, rs, stats2, _, _, _, _, _, hloop, hfetch⟩ |
      ⟨msg, stats2, hcase⟩
    · rw [h] at hcase
      simp only [Prod.mk.injEq, Except.ok.injEq] at hcase
      rw [hcase.1, hcase.2]
      exact ⟨rfl, rfl⟩
    · rw [h] at hfetch
      simp only [Prod.mk.injEq, Except.ok.injEq] at hfetch
      obtain ⟨hq, hs⟩ := hfetch
      subst hq
      subst hs
      have hc := processPutRows_counts chain.puts [] _ rs _ hloop
      have h1 := hc.1
      have h2 := hc.2.1
      have h3 := hc.2.2.2
      clear hc
      dsimp only at h2 h3
      simp only [emptyStats, List.length_nil] at h2 h3
      constructor
      · omega
      · rw [h1]
        exact (List.length_insertionSort aprDescending rs).symm
    · rw [h] at hcase
      simp at hcase

unseal Rat.mul Rat.add Rat.sub Rat.inv in
/-- C10 witness: on `env0` the covered-call counters add up:
`5 = 3 + 1 + 1` with three quotes kept. -/
theorem c10_witness :
    callStats0.total_rows =
      callStats0.kept + callStats0.missing_bid + callStats0.not_otm ∧
    callStats0.kept = [q110, q112, q105].length :=
  c10_stats_accounting.2.2.2.1 env0 "XYZ" "2026-01-30" [q110, q112, q105]
    callStats0 rfl
